import Mathlib

/-!
Verification of the CauldronWatch analysis core.

This file gives a shallow embedding, in Lean 4, of the correctness-critical
parts of the CauldronWatch backend:

* `backend/data_analysis/rate_calculator.py` — fill-rate estimation and the
  drain-volume reconciliation formula;
* `backend/data_analysis/drain_detector.py` — drain-interval segmentation;
* `backend/data_analysis/analyzer.py` — the per-cauldron analysis pipeline
  with its fail-soft error handling and relaxed-threshold fallback;
* `backend/detection/config.py`, `backend/detection/discrepancy.py`,
  `backend/detection/ticket_matcher.py` — ticket-to-drain matching;
* `backend/api/reconcile_service.py` — discrepancy severity classification.

Modelling conventions:

* Python floats are embedded as exact rationals `ℚ`; float rounding error is
  out of scope of the claims treated here.
* Pandas timestamps are embedded as their value in minutes: rationals for the
  analysis pipeline, naturals for the matcher (where only the calendar day,
  `ts / 1440`, and the ordering of timestamps matter).
* Python's stable `sorted` is embedded as a structurally recursive insertion
  sort (`insertionSortB`), which is also stable, and stable sorts of a list
  under a total preorder agree elementwise.
* Python dicts keep insertion order; `groupByKey` reproduces exactly the
  `setdefault`-based grouping of the source.
* `NaN` never arises on the rational model except where pandas produces it
  structurally (zero time deltas, leading `diff` entries); those places are
  embedded with `Option ℚ` or guarded as in the source.
-/

/-! ## Stable sorting (embedding of Python's `sorted`) -/

/-- Insert `a` before the first element `b` with `le a b = true`.  Used to
embed Python's stable sort: an element inserted later (i.e. occurring earlier
in the input) lands before elements it ties with. -/
def orderedInsertB (le : α → α → Bool) (a : α) : List α → List α
  | [] => [a]
  | b :: l => if le a b then a :: b :: l else b :: orderedInsertB le a l

/-- Structurally recursive stable insertion sort; the embedding of Python's
`sorted(xs, key=...)` for a total preorder `le`. -/
def insertionSortB (le : α → α → Bool) : List α → List α
  | [] => []
  | a :: l => orderedInsertB le a (insertionSortB le l)

theorem perm_orderedInsertB (le : α → α → Bool) (a : α) :
    ∀ l : List α, List.Perm (orderedInsertB le a l) (a :: l) := by
  intro l
  induction l with
  | nil => exact List.Perm.refl _
  | cons b t ih =>
    simp only [orderedInsertB]
    by_cases h : le a b
    · rw [if_pos h]
    · rw [if_neg h]
      exact (ih.cons b).trans (List.Perm.swap a b t)

theorem perm_insertionSortB (le : α → α → Bool) :
    ∀ l : List α, List.Perm (insertionSortB le l) l := by
  intro l
  induction l with
  | nil => exact List.Perm.refl _
  | cons a t ih =>
    exact (perm_orderedInsertB le a (insertionSortB le t)).trans (ih.cons a)

theorem mem_orderedInsertB (le : α → α → Bool) (a c : α) (l : List α) :
    c ∈ orderedInsertB le a l ↔ c = a ∨ c ∈ l := by
  have h := (perm_orderedInsertB le a l).mem_iff (a := c)
  simpa using h

theorem pairwise_orderedInsertB (le : α → α → Bool)
    (htrans : ∀ a b c, le a b = true → le b c = true → le a c = true)
    (htotal : ∀ a b, le a b = true ∨ le b a = true) (a : α) :
    ∀ l : List α, l.Pairwise (fun x y => le x y = true) →
      (orderedInsertB le a l).Pairwise (fun x y => le x y = true) := by
  intro l
  induction l with
  | nil =>
    intro _
    simp [orderedInsertB]
  | cons b t ih =>
    intro hp
    rcases List.pairwise_cons.mp hp with ⟨hb, ht⟩
    simp only [orderedInsertB]
    by_cases h : le a b
    · rw [if_pos h]
      refine List.pairwise_cons.mpr ⟨?_, hp⟩
      intro c hc
      rcases List.mem_cons.mp hc with rfl | hc
      · exact h
      · exact htrans a b c h (hb c hc)
    · rw [if_neg h]
      refine List.pairwise_cons.mpr ⟨?_, ih ht⟩
      intro c hc
      rcases (mem_orderedInsertB le a c t).mp hc with hc' | hc
      · rw [hc']
        rcases htotal a b with h' | h'
        · exact absurd h' h
        · exact h'
      · exact hb c hc

theorem pairwise_insertionSortB (le : α → α → Bool)
    (htrans : ∀ a b c, le a b = true → le b c = true → le a c = true)
    (htotal : ∀ a b, le a b = true ∨ le b a = true) :
    ∀ l : List α, (insertionSortB le l).Pairwise (fun x y => le x y = true) := by
  intro l
  induction l with
  | nil => simp [insertionSortB]
  | cons a t ih => exact pairwise_orderedInsertB le htrans htotal a _ ih

/-- Two sorted lists that are permutations of each other agree, provided ties
in the order only happen between equal elements of the list. -/
theorem eq_of_perm_of_pairwiseB (le : α → α → Bool) :
    ∀ l₁ l₂ : List α, List.Perm l₁ l₂ →
      l₁.Pairwise (fun x y => le x y = true) →
      l₂.Pairwise (fun x y => le x y = true) →
      (∀ a ∈ l₁, ∀ b ∈ l₁, le a b = true → le b a = true → a = b) →
      l₁ = l₂ := by
  intro l₁
  induction l₁ with
  | nil =>
    intro l₂ hp _ _ _
    exact hp.nil_eq
  | cons a t₁ ih =>
    intro l₂ hp h₁ h₂ anti
    cases l₂ with
    | nil => exact absurd hp.eq_nil (by simp)
    | cons b t₂ =>
      rcases List.pairwise_cons.mp h₁ with ⟨ha, ht₁⟩
      rcases List.pairwise_cons.mp h₂ with ⟨hbb, ht₂⟩
      have hab : a = b := by
        have hamem : a ∈ b :: t₂ := hp.mem_iff.mp (by simp)
        have hbmem : b ∈ a :: t₁ := hp.symm.mem_iff.mp (by simp)
        rcases List.mem_cons.mp hamem with h | hat₂
        · exact h
        · rcases List.mem_cons.mp hbmem with h | hbt₁
          · exact h.symm
          · exact anti a (by simp) b (by simp [hbt₁]) (ha b hbt₁) (hbb a hat₂)
      subst hab
      have ht : List.Perm t₁ t₂ := hp.cons_inv
      have hteq : t₁ = t₂ := by
        refine ih t₂ ht ht₁ ht₂ ?_
        intro x hx y hy hxy hyx
        exact anti x (by simp [hx]) y (by simp [hy]) hxy hyx
      rw [hteq]

/-- Sorting two permuted lists gives the same list when ties in the order only
happen between equal elements. -/
theorem insertionSortB_eq_of_perm (le : α → α → Bool)
    (htrans : ∀ a b c, le a b = true → le b c = true → le a c = true)
    (htotal : ∀ a b, le a b = true ∨ le b a = true)
    (l₁ l₂ : List α) (hp : List.Perm l₁ l₂)
    (anti : ∀ a ∈ l₁, ∀ b ∈ l₁, le a b = true → le b a = true → a = b) :
    insertionSortB le l₁ = insertionSortB le l₂ := by
  have p₁ := perm_insertionSortB le l₁
  have p₂ := perm_insertionSortB le l₂
  refine eq_of_perm_of_pairwiseB le _ _ (p₁.trans (hp.trans p₂.symm))
    (pairwise_insertionSortB le htrans htotal l₁)
    (pairwise_insertionSortB le htrans htotal l₂) ?_
  intro a hamem b hbmem
  exact anti a (p₁.mem_iff.mp hamem) b (p₁.mem_iff.mp hbmem)

/-! ## Kernel-friendly string comparison

Python compares `str` lexicographically by code point.  The embedding compares
the underlying character lists by `Char.toNat`; this is the same order as
Lean's `String` order but is structurally recursive. -/

/-- Lexicographic comparison of character lists by code point. -/
def charsLe : List Char → List Char → Bool
  | [], _ => true
  | _ :: _, [] => false
  | a :: as, b :: bs =>
    if a.toNat < b.toNat then true
    else if b.toNat < a.toNat then false
    else charsLe as bs

/-- Lexicographic order on strings, as Python orders `str`. -/
def strLe (a b : String) : Bool := charsLe a.data b.data

theorem charsLe_cons_iff (a b : Char) (as bs : List Char) :
    charsLe (a :: as) (b :: bs) = true ↔
      a.toNat < b.toNat ∨ (a.toNat = b.toNat ∧ charsLe as bs = true) := by
  simp only [charsLe]
  split_ifs with h1 h2
  · simp [h1]
  · constructor
    · intro h
      exact absurd h (by simp)
    · intro h
      rcases h with h | ⟨h, _⟩
      · omega
      · omega
  · have he : a.toNat = b.toNat := by omega
    constructor
    · intro h
      exact Or.inr ⟨he, h⟩
    · intro h
      rcases h with h | ⟨_, h⟩
      · omega
      · exact h

theorem charsLe_total : ∀ a b, charsLe a b = true ∨ charsLe b a = true := by
  intro a
  induction a with
  | nil =>
    intro b
    left
    simp [charsLe]
  | cons x as ih =>
    intro b
    cases b with
    | nil =>
      right
      simp [charsLe]
    | cons y bs =>
      rw [charsLe_cons_iff, charsLe_cons_iff]
      rcases Nat.lt_trichotomy x.toNat y.toNat with h | h | h
      · exact Or.inl (Or.inl h)
      · rcases ih bs with hc | hc
        · exact Or.inl (Or.inr ⟨h, hc⟩)
        · exact Or.inr (Or.inr ⟨h.symm, hc⟩)
      · exact Or.inr (Or.inl h)

theorem charsLe_trans : ∀ a b c, charsLe a b = true → charsLe b c = true →
    charsLe a c = true := by
  intro a
  induction a with
  | nil =>
    intro b c _ _
    simp [charsLe]
  | cons x as ih =>
    intro b c hab hbc
    cases b with
    | nil => simp [charsLe] at hab
    | cons y bs =>
      cases c with
      | nil => simp [charsLe] at hbc
      | cons z cs =>
        rw [charsLe_cons_iff] at hab hbc ⊢
        rcases hab with hab | ⟨hab, hab'⟩
        · rcases hbc with hbc | ⟨hbc, _⟩
          · exact Or.inl (by omega)
          · exact Or.inl (by omega)
        · rcases hbc with hbc | ⟨hbc, hbc'⟩
          · exact Or.inl (by omega)
          · exact Or.inr ⟨by omega, ih bs cs hab' hbc'⟩

theorem charsLe_antisymm : ∀ a b, charsLe a b = true → charsLe b a = true →
    a = b := by
  intro a
  induction a with
  | nil =>
    intro b _ hba
    cases b with
    | nil => rfl
    | cons y bs => simp [charsLe] at hba
  | cons x as ih =>
    intro b hab hba
    cases b with
    | nil => simp [charsLe] at hab
    | cons y bs =>
      rw [charsLe_cons_iff] at hab hba
      have hx : x.toNat = y.toNat := by
        rcases hab with h | ⟨h, _⟩ <;> rcases hba with h' | ⟨h', _⟩ <;> omega
      have hchar : x = y := by
        have h2 := congrArg Char.ofNat hx
        simpa [Char.ofNat_toNat] using h2
      have has : charsLe as bs = true := by
        rcases hab with h | ⟨_, h⟩
        · omega
        · exact h
      have hbs : charsLe bs as = true := by
        rcases hba with h | ⟨_, h⟩
        · omega
        · exact h
      rw [hchar, ih bs has hbs]

theorem strLe_total (a b : String) : strLe a b = true ∨ strLe b a = true :=
  charsLe_total a.data b.data

theorem strLe_trans (a b c : String) (h1 : strLe a b = true)
    (h2 : strLe b c = true) : strLe a c = true :=
  charsLe_trans a.data b.data c.data h1 h2

theorem strLe_antisymm (a b : String) (h1 : strLe a b = true)
    (h2 : strLe b a = true) : a = b := by
  cases a
  cases b
  exact congrArg String.mk (charsLe_antisymm _ _ h1 h2)

/-! ## `rate_calculator.py`: the VolumeReconciler formula -/

namespace RateCalculator

/-- Embedding of `RateCalculator.calculate_true_drain_volume`
(`rate_calculator.py` lines 104–133):
`level_drop = start_level - end_level`;
`potion_added_during_drain = fill_rate * duration_minutes`;
returns `level_drop + potion_added_during_drain`. -/
def calculate_true_drain_volume (start_level end_level duration_minutes
    fill_rate : ℚ) : ℚ :=
  let level_drop := start_level - end_level
  let potion_added_during_drain := fill_rate * duration_minutes
  level_drop + potion_added_during_drain

/-- Embedding of `RateCalculator.calculate_drain_rate`
(`rate_calculator.py` lines 81–102). -/
def calculate_drain_rate (start_level end_level duration_minutes : ℚ) : ℚ :=
  if duration_minutes = 0 then 0
  else (end_level - start_level) / duration_minutes

end RateCalculator

/-- C1: for all inputs, `calculate_true_drain_volume` returns exactly
`(start_level - end_level) + fill_rate * duration_minutes` — one unconditional
equation, with no branches, no clamping, and no special-casing of negative
`fill_rate`. -/
theorem C1_true_drain_volume_formula (start_level end_level duration_minutes
    fill_rate : ℚ) :
    RateCalculator.calculate_true_drain_volume start_level end_level
        duration_minutes fill_rate
      = (start_level - end_level) + fill_rate * duration_minutes := rfl

/-- C2 counterexample: the claim quantifies over *every* duration, but at
`start_level = 0`, `end_level = 0`, `duration_minutes = -1`, `fill_rate = 1`
(a nonnegative fill rate) the returned volume `-1` is strictly below the
observed level drop `0 - 0 = 0`. -/
theorem C2_counterexample :
    (0 : ℚ) ≤ 1 ∧
      RateCalculator.calculate_true_drain_volume 0 0 (-1) 1 < 0 - 0 := by
  constructor
  · norm_num
  · norm_num [RateCalculator.calculate_true_drain_volume]

/-- C2 (amended): for every `start_level`, `end_level`, every *nonnegative*
`duration_minutes`, and every `fill_rate ≥ 0`, the reconciled volume is at
least the observed level drop `start_level - end_level`. -/
theorem C2_true_volume_ge_level_drop (start_level end_level duration_minutes
    fill_rate : ℚ) (hf : 0 ≤ fill_rate) (hd : 0 ≤ duration_minutes) :
    start_level - end_level ≤
      RateCalculator.calculate_true_drain_volume start_level end_level
        duration_minutes fill_rate := by
  simp only [RateCalculator.calculate_true_drain_volume]
  nlinarith [mul_nonneg hf hd]

/-- C2 witness: the amended inequality holds at the concrete input
`start = 100`, `end = 60`, `duration = 10`, `fill_rate = 2`. -/
theorem C2_true_volume_ge_level_drop_witness :
    (0 : ℚ) ≤ 2 ∧ (0 : ℚ) ≤ 10 ∧
      (100 : ℚ) - 60 ≤
        RateCalculator.calculate_true_drain_volume 100 60 10 2 :=
  ⟨by norm_num, by norm_num,
    C2_true_volume_ge_level_drop 100 60 10 2 (by norm_num) (by norm_num)⟩

/-! ## `detection/config.py`, `detection/discrepancy.py` -/

namespace Detection

/-- Embedding of `TOL_PCT` from `detection/config.py`. -/
def TOL_PCT : ℚ := 0.20

/-- Embedding of `TOL_ABS` from `detection/config.py`. -/
def TOL_ABS : ℚ := 12.0

/-- Embedding of `WARN_PCT` from `detection/config.py`. -/
def WARN_PCT : ℚ := 0.30

/-- Embedding of `classify` from `detection/discrepancy.py`:
`base_ok = abs(diff) <= max(TOL_ABS, TOL_PCT * max(drained_sum, 1.0))`. -/
def classify (diff drained_sum : ℚ) (cross_day : Bool) : String :=
  if |diff| ≤ max TOL_ABS (TOL_PCT * max drained_sum 1) then
    if cross_day then "cross_day_valid" else "valid"
  else if diff > 0 then
    if cross_day then "cross_day_suspicious_over" else "suspicious_over"
  else
    if cross_day then "cross_day_suspicious_under" else "suspicious_under"

/-- Embedding of `confidence` from `detection/discrepancy.py`:
`max(0.0, min(1.0, 1.0 - pct - 0.05 * max(0, bundle_size - 1)))` with
`pct = abs(diff) / max(denom, 1.0)`.  `bundle_size` is a Python `int`; the
ℕ-subtraction `bundle_size - 1` equals Python's `max(0, bundle_size - 1)`. -/
def confidence (diff denom : ℚ) (bundle_size : ℕ) : ℚ :=
  let pct := |diff| / max denom 1
  max 0 (min 1 (1 - pct - 0.05 * ((bundle_size - 1 : ℕ) : ℚ)))

/-! ## `detection/ticket_matcher.py` -/

/-- Embedding of the `Ticket` dataclass of `ticket_matcher.py`.  `date` is a
calendar-day number. -/
structure Ticket where
  ticket_id : String
  cauldron_id : String
  date : ℕ
  amount_collected : ℚ
  courier_id : Option String := none
deriving DecidableEq

/-- Embedding of the `DrainEvent` dataclass of `ticket_matcher.py`.
Timestamps are absolute minutes; the calendar day of a timestamp is
`ts / 1440`. -/
structure DrainEvent where
  drain_event_id : String
  cauldron_id : String
  start_ts : ℕ
  end_ts : ℕ
  drained_volume : ℚ
deriving DecidableEq

/-- Embedding of the `MatchResult` dataclass of `ticket_matcher.py`. -/
structure MatchResult where
  ticket_id : String
  cauldron_id : String
  drain_event_ids : List String
  drained_volume : ℚ
  difference : ℚ
  pct_diff : ℚ
  status : String
  confidence : ℚ
  cross_day : Bool
  match_date : Option ℕ
deriving DecidableEq

/-- Embedding of `_key_day`: the calendar day of a timestamp (`.date()` on a
datetime, with timestamps in absolute minutes). -/
def key_day (ts : ℕ) : ℕ := ts / 1440

/-- Sort order of `sorted(drains, key=lambda x: (x.cauldron_id, x.start_ts))`. -/
def drainLe (a b : DrainEvent) : Bool :=
  if a.cauldron_id = b.cauldron_id then a.start_ts ≤ b.start_ts
  else strLe a.cauldron_id b.cauldron_id

/-- Sort order of
`sorted(tickets, key=lambda x: (x.cauldron_id, x.date, x.ticket_id))`. -/
def ticketLe (a b : Ticket) : Bool :=
  if a.cauldron_id = b.cauldron_id then
    if a.date = b.date then strLe a.ticket_id b.ticket_id
    else a.date ≤ b.date
  else strLe a.cauldron_id b.cauldron_id

/-- One `setdefault(key, []).append(x)` step on an insertion-ordered
association list: the embedding of grouping into a Python dict. -/
def insertGrouped [DecidableEq κ] (k : κ) (a : α) :
    List (κ × List α) → List (κ × List α)
  | [] => [(k, [a])]
  | (k', as) :: rest =>
    if k' = k then (k', as ++ [a]) :: rest
    else (k', as) :: insertGrouped k a rest

/-- Group a list by a key, keeping dict insertion order (first occurrence of a
key fixes its position) and input order inside each group. -/
def groupByKey [DecidableEq κ] (key : α → κ) (l : List α) :
    List (κ × List α) :=
  l.foldl (fun acc a => insertGrouped (key a) a acc) []

/-- Embedding of `dict.get(key, [])` on an association list. -/
def lookupKey [DecidableEq κ] (k : κ) : List (κ × List α) → List α
  | [] => []
  | (k', as) :: rest => if k' = k then as else lookupKey k rest

/-- Embedding of the pointer-advance loop
`while ptr < len(day_drains) and day_drains[ptr].drain_event_id in used`:
counts the leading drains of the remaining list whose id is already used. -/
def advanceUsed (used : List String) : List DrainEvent → ℕ
  | [] => 0
  | d :: rest =>
    if d.drain_event_id ∈ used then advanceUsed used rest + 1 else 0

/-- Result of the inner greedy bundling loop: accepted ids in order, the
cumulative volume, and how far the index `j` advanced. -/
structure BundleOut where
  ids : List String
  sum : ℚ
  adv : ℕ
deriving DecidableEq

/-- Embedding of the inner `while j < len(day_drains)` loop of
`match_tickets_to_drains`: starting from cumulative volume `cur_sum`, accept
the next unused drain only if that keeps `|amount - sum|` from growing
(ties accepted, since the source compares with `<=`); stop once the sum
reaches the claim or the candidate fails to improve closeness. -/
def bundleLoop (amount : ℚ) (used : List String) :
    List DrainEvent → ℚ → BundleOut
  | [], cur_sum => ⟨[], cur_sum, 0⟩
  | d :: rest, cur_sum =>
    if d.drain_event_id ∈ used then
      let r := bundleLoop amount used rest cur_sum
      ⟨r.ids, r.sum, r.adv + 1⟩
    else
      let trial := cur_sum + d.drained_volume
      if |amount - trial| ≤ |amount - cur_sum| then
        if trial ≥ amount then ⟨[d.drain_event_id], trial, 1⟩
        else
          let r := bundleLoop amount used rest trial
          ⟨d.drain_event_id :: r.ids, r.sum, r.adv + 1⟩
      else ⟨[], cur_sum, 0⟩

/-- State after handling one ticket: its `MatchResult`, the new pointer, and
the new used-id set. -/
structure TicketStep where
  m : MatchResult
  ptr2 : ℕ
  used2 : List String

/-- Embedding of one iteration of `for tk in day_tickets` in
`match_tickets_to_drains` (lines 57–98): advance the pointer past used
drains, bundle greedily, then build the `MatchResult`. -/
def processTicket (cid : String) (day : ℕ) (day_drains : List DrainEvent)
    (tk : Ticket) (ptr : ℕ) (used : List String) : TicketStep :=
  let p1 := ptr + advanceUsed used (day_drains.drop ptr)
  let r := bundleLoop tk.amount_collected used (day_drains.drop p1) 0
  let ptr2 := if r.ids = [] then p1 else p1 + r.adv
  let used2 := if r.ids = [] then used else used ++ r.ids
  let diff := tk.amount_collected - r.sum
  let pct := if r.sum > 0 then |diff| / max r.sum 1 * 100 else 100
  let status := if r.ids = [] then "unmatched" else classify diff r.sum false
  let conf := confidence diff (if r.sum > 0 then r.sum else tk.amount_collected)
    (if r.ids = [] then 1 else r.ids.length)
  ⟨⟨tk.ticket_id, cid, r.ids, r.sum, diff, pct, status, conf, false, some day⟩,
    ptr2, used2⟩

/-- Embedding of the `for tk in day_tickets` loop over one `(cauldron, day)`
group, threading the pointer and the global used set. -/
def processGroup (cid : String) (day : ℕ) (day_drains : List DrainEvent) :
    List Ticket → ℕ → List String → List MatchResult × List String
  | [], _, used => ([], used)
  | tk :: rest, ptr, used =>
    let st := processTicket cid day day_drains tk ptr used
    let r := processGroup cid day day_drains rest st.ptr2 st.used2
    (st.m :: r.1, r.2)

/-- Embedding of the `for key, day_tickets in tickets_by_key.items()` loop,
with the used set shared across groups. -/
def processGroups (drains_by : List ((String × ℕ) × List DrainEvent)) :
    List ((String × ℕ) × List Ticket) → List String →
      List MatchResult × List String
  | [], used => ([], used)
  | (key, tks) :: rest, used =>
    let g := processGroup key.1 key.2 (lookupKey key drains_by) tks 0 used
    let r := processGroups drains_by rest g.2
    (g.1 ++ r.1, r.2)

/-- Output of `match_tickets_to_drains`: the dict
`{"matches": ..., "unmatched_drains": ...}`. -/
structure MatchOutput where
  matches' : List MatchResult
  unmatched_drains : List DrainEvent
deriving DecidableEq

/-- The grouping `drains_by_key` of `match_tickets_to_drains`. -/
def drainsByKey (drains : List DrainEvent) :
    List ((String × ℕ) × List DrainEvent) :=
  groupByKey (fun d => (d.cauldron_id, key_day d.start_ts))
    (insertionSortB drainLe drains)

/-- The grouping `tickets_by_key` of `match_tickets_to_drains`. -/
def ticketsByKey (tickets : List Ticket) :
    List ((String × ℕ) × List Ticket) :=
  groupByKey (fun t => (t.cauldron_id, t.date))
    (insertionSortB ticketLe tickets)

/-- Embedding of `match_tickets_to_drains` (`ticket_matcher.py` lines
39–100): sort and group both inputs by `(cauldron, day)`, run the greedy
per-group matching with a globally shared used set, and return the drains
never claimed, in input order. -/
def match_tickets_to_drains (tickets : List Ticket)
    (drains : List DrainEvent) : MatchOutput :=
  let r := processGroups (drainsByKey drains) (ticketsByKey tickets) []
  ⟨r.1, drains.filter (fun d => d.drain_event_id ∉ r.2)⟩

end Detection

namespace Detection

/-- The greedy-bundling example ticket of spec §8: one ticket claiming 50
units for vessel `V1` on day 0. -/
def exTicket50 : Ticket := ⟨"T1", "V1", 0, 50, none⟩

/-- First same-day drain of 20 units. -/
def exDrain1 : DrainEvent := ⟨"D1", "V1", 10, 15, 20⟩

/-- Second same-day drain of 20 units. -/
def exDrain2 : DrainEvent := ⟨"D2", "V1", 20, 25, 20⟩

/-- Third same-day drain of 20 units. -/
def exDrain3 : DrainEvent := ⟨"D3", "V1", 30, 35, 20⟩

/-- Full evaluation of the matcher on the spec §8 greedy-bundling example:
the tie `|50 - 60| = |50 - 40|` is accepted by the source's `<=` test, so all
three drains are bundled, `drained_volume = 60`, `difference = -10`, the
match is `valid` and no drain is left unclaimed. -/
theorem greedy_example_run :
    match_tickets_to_drains [exTicket50] [exDrain1, exDrain2, exDrain3] =
      ⟨[⟨"T1", "V1", ["D1", "D2", "D3"], 60, -10, 50/3, "valid", 11/15,
        false, some 0⟩], []⟩ := by
  norm_num [match_tickets_to_drains, drainsByKey, ticketsByKey,
    insertionSortB, orderedInsertB, drainLe,
    ticketLe, strLe, charsLe, groupByKey, insertGrouped, lookupKey,
    processGroups, processGroup, processTicket, advanceUsed, bundleLoop,
    classify, confidence, key_day, TOL_ABS, TOL_PCT,
    exTicket50, exDrain1, exDrain2, exDrain3, List.foldl]
  refine ⟨⟨fun h => absurd h (by simp), ?_⟩, by simp⟩
  rw [if_neg (by simp)]
  norm_num

end Detection

/-- C3 counterexample: on one ticket claiming 50 and three same-day drains of
20, 20, 20 in timestamp order, the code does NOT stop at two drains: it is
false that the ticket's `MatchResult` has `drained_volume = 40` and
`difference = 10` with the third drain left unclaimed.  (The source accepts
the tie `|50 - 60| <= |50 - 40|`.) -/
theorem C3_counterexample :
    ¬ (((Detection.match_tickets_to_drains [Detection.exTicket50]
          [Detection.exDrain1, Detection.exDrain2,
            Detection.exDrain3]).matches'.map
          (fun m => (m.drained_volume, m.difference)) = [(40, 10)])
        ∧ (Detection.match_tickets_to_drains [Detection.exTicket50]
            [Detection.exDrain1, Detection.exDrain2,
              Detection.exDrain3]).unmatched_drains = [Detection.exDrain3]) := by
  rw [Detection.greedy_example_run]
  intro h
  rcases h with ⟨h1, _⟩
  simp at h1

/-- C3 (amended): for one ticket claiming 50 units and exactly three unused
same-day drains of 20, 20, 20 in timestamp order, the matcher bundles ALL
THREE drains into the ticket's `MatchResult` — the tie at the third drain
(`|50 - 60| = |50 - 40|`) counts as an improvement under the source's `<=`
rule — yielding `drained_volume = 60`, `difference = -10`, and no unclaimed
drain. -/
theorem C3_greedy_bundles_all_three_drains :
    ((Detection.match_tickets_to_drains [Detection.exTicket50]
        [Detection.exDrain1, Detection.exDrain2,
          Detection.exDrain3]).matches'.map
        (fun m => (m.drain_event_ids, m.drained_volume, m.difference))
      = [(["D1", "D2", "D3"], (60 : ℚ), (-10 : ℚ))])
    ∧ (Detection.match_tickets_to_drains [Detection.exTicket50]
        [Detection.exDrain1, Detection.exDrain2,
          Detection.exDrain3]).unmatched_drains = [] := by
  rw [Detection.greedy_example_run]
  simp

namespace Detection

theorem bundleLoop_nil (amount : ℚ) (used : List String) (s : ℚ) :
    bundleLoop amount used [] s = ⟨[], s, 0⟩ := rfl

theorem bundleLoop_cons_used (amount : ℚ) (used : List String)
    (d : DrainEvent) (rest : List DrainEvent) (s : ℚ)
    (hu : d.drain_event_id ∈ used) :
    bundleLoop amount used (d :: rest) s =
      ⟨(bundleLoop amount used rest s).ids,
        (bundleLoop amount used rest s).sum,
        (bundleLoop amount used rest s).adv + 1⟩ := by
  simp [bundleLoop, hu]

theorem bundleLoop_cons_stop (amount : ℚ) (used : List String)
    (d : DrainEvent) (rest : List DrainEvent) (s : ℚ)
    (hu : d.drain_event_id ∉ used)
    (himp : ¬ |amount - (s + d.drained_volume)| ≤ |amount - s|) :
    bundleLoop amount used (d :: rest) s = ⟨[], s, 0⟩ := by
  simp [bundleLoop, hu, himp]

theorem bundleLoop_cons_done (amount : ℚ) (used : List String)
    (d : DrainEvent) (rest : List DrainEvent) (s : ℚ)
    (hu : d.drain_event_id ∉ used)
    (himp : |amount - (s + d.drained_volume)| ≤ |amount - s|)
    (hge : s + d.drained_volume ≥ amount) :
    bundleLoop amount used (d :: rest) s =
      ⟨[d.drain_event_id], s + d.drained_volume, 1⟩ := by
  simp [bundleLoop, hu, himp, hge]

theorem bundleLoop_cons_take (amount : ℚ) (used : List String)
    (d : DrainEvent) (rest : List DrainEvent) (s : ℚ)
    (hu : d.drain_event_id ∉ used)
    (himp : |amount - (s + d.drained_volume)| ≤ |amount - s|)
    (hge : ¬ s + d.drained_volume ≥ amount) :
    bundleLoop amount used (d :: rest) s =
      ⟨d.drain_event_id ::
          (bundleLoop amount used rest (s + d.drained_volume)).ids,
        (bundleLoop amount used rest (s + d.drained_volume)).sum,
        (bundleLoop amount used rest (s + d.drained_volume)).adv + 1⟩ := by
  simp [bundleLoop, hu, himp, hge]

/-- Every id accepted by the greedy bundling loop was unused when the loop
started (the source tests `d.drain_event_id in used` before accepting). -/
theorem bundleLoop_ids_not_used (amount : ℚ) (used : List String) :
    ∀ (l : List DrainEvent) (s : ℚ) (id : String),
      id ∈ (bundleLoop amount used l s).ids → id ∉ used := by
  intro l
  induction l with
  | nil =>
    intro s id hid
    simp [bundleLoop_nil] at hid
  | cons d rest ih =>
    intro s id hid
    by_cases hu : d.drain_event_id ∈ used
    · rw [bundleLoop_cons_used amount used d rest s hu] at hid
      exact ih s id hid
    · by_cases himp : |amount - (s + d.drained_volume)| ≤ |amount - s|
      · by_cases hge : s + d.drained_volume ≥ amount
        · rw [bundleLoop_cons_done amount used d rest s hu himp hge] at hid
          simp at hid
          rw [hid]
          exact hu
        · rw [bundleLoop_cons_take amount used d rest s hu himp hge] at hid
          rcases List.mem_cons.mp hid with hid' | hid'
          · rw [hid']
            exact hu
          · exact ih _ id hid'
      · rw [bundleLoop_cons_stop amount used d rest s hu himp] at hid
        simp at hid

theorem processTicket_ids_eq (cid : String) (day : ℕ)
    (dd : List DrainEvent) (tk : Ticket) (ptr : ℕ) (used : List String) :
    (processTicket cid day dd tk ptr used).m.drain_event_ids =
      (bundleLoop tk.amount_collected used
        (dd.drop (ptr + advanceUsed used (dd.drop ptr))) 0).ids := rfl

theorem processTicket_used2_eq (cid : String) (day : ℕ)
    (dd : List DrainEvent) (tk : Ticket) (ptr : ℕ) (used : List String) :
    (processTicket cid day dd tk ptr used).used2 =
      if (bundleLoop tk.amount_collected used
            (dd.drop (ptr + advanceUsed used (dd.drop ptr))) 0).ids = []
      then used
      else used ++ (bundleLoop tk.amount_collected used
            (dd.drop (ptr + advanceUsed used (dd.drop ptr))) 0).ids := rfl

/-- The ids of the match produced for one ticket were all unused before. -/
theorem processTicket_ids_fresh (cid : String) (day : ℕ)
    (dd : List DrainEvent) (tk : Ticket) (ptr : ℕ) (used : List String)
    (id : String)
    (hid : id ∈ (processTicket cid day dd tk ptr used).m.drain_event_ids) :
    id ∉ used := by
  rw [processTicket_ids_eq] at hid
  exact bundleLoop_ids_not_used tk.amount_collected used _ 0 id hid

/-- After one ticket, the used set holds exactly the old ids plus the new
match's ids. -/
theorem processTicket_mem_used2 (cid : String) (day : ℕ)
    (dd : List DrainEvent) (tk : Ticket) (ptr : ℕ) (used : List String)
    (x : String) :
    x ∈ (processTicket cid day dd tk ptr used).used2 ↔
      x ∈ used ∨ x ∈ (processTicket cid day dd tk ptr used).m.drain_event_ids := by
  rw [processTicket_used2_eq, processTicket_ids_eq]
  by_cases h : (bundleLoop tk.amount_collected used
      (dd.drop (ptr + advanceUsed used (dd.drop ptr))) 0).ids = []
  · simp [h]
  · simp [h, List.mem_append]

theorem processGroup_mem_used (cid : String) (day : ℕ)
    (dd : List DrainEvent) :
    ∀ (tks : List Ticket) (ptr : ℕ) (used : List String) (x : String),
      x ∈ (processGroup cid day dd tks ptr used).2 ↔
        x ∈ used ∨ ∃ m ∈ (processGroup cid day dd tks ptr used).1,
          x ∈ m.drain_event_ids := by
  intro tks
  induction tks with
  | nil =>
    intro ptr used x
    simp [processGroup]
  | cons tk rest ih =>
    intro ptr used x
    simp only [processGroup]
    rw [ih, processTicket_mem_used2]
    simp only [List.exists_mem_cons_iff]
    tauto

theorem processGroup_ids_fresh (cid : String) (day : ℕ)
    (dd : List DrainEvent) :
    ∀ (tks : List Ticket) (ptr : ℕ) (used : List String) (m : MatchResult),
      m ∈ (processGroup cid day dd tks ptr used).1 →
        ∀ id ∈ m.drain_event_ids, id ∉ used := by
  intro tks
  induction tks with
  | nil =>
    intro ptr used m hm
    simp [processGroup] at hm
  | cons tk rest ih =>
    intro ptr used m hm id hid
    simp only [processGroup] at hm
    rcases List.mem_cons.mp hm with hm' | hm'
    · rw [hm'] at hid
      exact processTicket_ids_fresh cid day dd tk ptr used id hid
    · intro hxu
      have h2 := ih _ _ m hm' id hid
      exact h2 ((processTicket_mem_used2 cid day dd tk ptr used id).mpr
        (Or.inl hxu))

theorem processGroup_pairwise (cid : String) (day : ℕ)
    (dd : List DrainEvent) :
    ∀ (tks : List Ticket) (ptr : ℕ) (used : List String),
      ((processGroup cid day dd tks ptr used).1).Pairwise
        (fun m₁ m₂ => ∀ id ∈ m₁.drain_event_ids,
          id ∉ m₂.drain_event_ids) := by
  intro tks
  induction tks with
  | nil =>
    intro ptr used
    simp [processGroup]
  | cons tk rest ih =>
    intro ptr used
    simp only [processGroup]
    refine List.pairwise_cons.mpr ⟨?_, ih _ _⟩
    intro m' hm' id hid hid'
    have hu2 : id ∈ (processTicket cid day dd tk ptr used).used2 :=
      (processTicket_mem_used2 cid day dd tk ptr used id).mpr (Or.inr hid)
    exact processGroup_ids_fresh cid day dd rest _ _ m' hm' id hid' hu2

theorem processGroups_mem_used (dby : List ((String × ℕ) × List DrainEvent)) :
    ∀ (gs : List ((String × ℕ) × List Ticket)) (used : List String)
      (x : String),
      x ∈ (processGroups dby gs used).2 ↔
        x ∈ used ∨ ∃ m ∈ (processGroups dby gs used).1,
          x ∈ m.drain_event_ids := by
  intro gs
  induction gs with
  | nil =>
    intro used x
    simp [processGroups]
  | cons g rest ih =>
    intro used x
    rcases g with ⟨key, tks⟩
    simp only [processGroups]
    rw [ih, processGroup_mem_used]
    simp only [List.mem_append]
    constructor
    · intro h
      rcases h with (h | ⟨m, hm, hx⟩) | ⟨m, hm, hx⟩
      · exact Or.inl h
      · exact Or.inr ⟨m, Or.inl hm, hx⟩
      · exact Or.inr ⟨m, Or.inr hm, hx⟩
    · intro h
      rcases h with h | ⟨m, hm | hm, hx⟩
      · exact Or.inl (Or.inl h)
      · exact Or.inl (Or.inr ⟨m, hm, hx⟩)
      · exact Or.inr ⟨m, hm, hx⟩

theorem processGroups_ids_fresh
    (dby : List ((String × ℕ) × List DrainEvent)) :
    ∀ (gs : List ((String × ℕ) × List Ticket)) (used : List String)
      (m : MatchResult),
      m ∈ (processGroups dby gs used).1 →
        ∀ id ∈ m.drain_event_ids, id ∉ used := by
  intro gs
  induction gs with
  | nil =>
    intro used m hm
    simp [processGroups] at hm
  | cons g rest ih =>
    intro used m hm id hid
    rcases g with ⟨key, tks⟩
    simp only [processGroups] at hm
    rcases List.mem_append.mp hm with hm' | hm'
    · exact processGroup_ids_fresh key.1 key.2 _ tks 0 used m hm' id hid
    · intro hxu
      have h2 := ih _ m hm' id hid
      exact h2 ((processGroup_mem_used key.1 key.2 _ tks 0 used id).mpr
        (Or.inl hxu))

theorem processGroups_pairwise
    (dby : List ((String × ℕ) × List DrainEvent)) :
    ∀ (gs : List ((String × ℕ) × List Ticket)) (used : List String),
      ((processGroups dby gs used).1).Pairwise
        (fun m₁ m₂ => ∀ id ∈ m₁.drain_event_ids,
          id ∉ m₂.drain_event_ids) := by
  intro gs
  induction gs with
  | nil =>
    intro used
    simp [processGroups]
  | cons g rest ih =>
    intro used
    rcases g with ⟨key, tks⟩
    simp only [processGroups]
    rw [List.pairwise_append]
    refine ⟨processGroup_pairwise key.1 key.2 _ tks 0 used, ih _, ?_⟩
    intro m₁ hm₁ m₂ hm₂ id hid hid'
    have hu2 : id ∈ (processGroup key.1 key.2 (lookupKey key dby) tks 0 used).2 :=
      (processGroup_mem_used key.1 key.2 _ tks 0 used id).mpr
        (Or.inr ⟨m₁, hm₁, hid⟩)
    exact processGroups_ids_fresh dby rest _ m₂ hm₂ id hid' hu2

theorem match_tickets_to_drains_eq (tickets : List Ticket)
    (drains : List DrainEvent) :
    match_tickets_to_drains tickets drains =
      ⟨(processGroups (drainsByKey drains) (ticketsByKey tickets) []).1,
        drains.filter (fun d => d.drain_event_id ∉
          (processGroups (drainsByKey drains) (ticketsByKey tickets) []).2)⟩ :=
  rfl

end Detection

/-- C4: in the output of `match_tickets_to_drains`, the `drain_event_ids`
lists of distinct `MatchResult`s are pairwise disjoint — every drain event id
is claimed by at most one `MatchResult` — and `unmatched_drains` is exactly
the input drains, in input order, whose id appears in no `MatchResult`'s
`drain_event_ids`. -/
theorem C4_at_most_one_claim_and_unmatched (tickets : List Detection.Ticket)
    (drains : List Detection.DrainEvent) :
    ((Detection.match_tickets_to_drains tickets drains).matches').Pairwise
      (fun m₁ m₂ => ∀ id ∈ m₁.drain_event_ids, id ∉ m₂.drain_event_ids)
    ∧ (Detection.match_tickets_to_drains tickets drains).unmatched_drains
      = drains.filter (fun d => decide
          (∀ m ∈ (Detection.match_tickets_to_drains tickets drains).matches',
            d.drain_event_id ∉ m.drain_event_ids)) := by
  rw [Detection.match_tickets_to_drains_eq]
  constructor
  · exact Detection.processGroups_pairwise _ _ []
  · refine List.filter_congr ?_
    intro d _
    rw [decide_eq_decide]
    rw [Detection.processGroups_mem_used]
    simp

/-! ## `api/reconcile_service.py` -/

namespace ReconcileService

/-- Embedding of `_severity_from` (`reconcile_service.py` lines 31–43): a
`valid`/`cross_day_valid` match is `info`; otherwise differences within
`max(TOL_ABS, TOL_PCT * max(basis, 1.0))` are `info`, and past tolerance the
split between `warning` and `critical` is `pct_off <= WARN_PCT`. -/
def severity_from (status : String) (diff : ℚ) (basis : ℚ) : String :=
  if status = "valid" ∨ status = "cross_day_valid" then "info"
  else
    let tol := max Detection.TOL_ABS (Detection.TOL_PCT * max basis 1)
    if |diff| ≤ tol then "info"
    else
      let pct_off := |diff| / max basis 1
      if pct_off ≤ Detection.WARN_PCT then "warning" else "critical"

end ReconcileService

/-- C5: with the default tolerances `TOL_ABS = 12`, `TOL_PCT = 0.20`,
`WARN_PCT = 0.30` and basis 100, the severity classifier maps a non-valid
match with `|difference| = 15` to `info` (tolerance `max(12, 20) = 20`),
`|difference| = 25` to `warning` (`0.25 ≤ 0.30`), and `|difference| = 40` to
`critical` (`0.40 > 0.30`). -/
theorem C5_classifier_boundaries (status : String) (d₁ d₂ d₃ : ℚ)
    (hs₁ : status ≠ "valid") (hs₂ : status ≠ "cross_day_valid")
    (h₁ : |d₁| = 15) (h₂ : |d₂| = 25) (h₃ : |d₃| = 40) :
    ReconcileService.severity_from status d₁ 100 = "info" ∧
    ReconcileService.severity_from status d₂ 100 = "warning" ∧
    ReconcileService.severity_from status d₃ 100 = "critical" := by
  have hns : ¬ (status = "valid" ∨ status = "cross_day_valid") := by
    intro h
    rcases h with h | h
    · exact hs₁ h
    · exact hs₂ h
  refine ⟨?_, ?_, ?_⟩
  · simp only [ReconcileService.severity_from, if_neg hns]
    rw [if_pos]
    rw [h₁]
    norm_num [Detection.TOL_ABS, Detection.TOL_PCT]
  · simp only [ReconcileService.severity_from, if_neg hns]
    rw [if_neg, if_pos]
    · rw [h₂]
      norm_num [Detection.WARN_PCT]
    · rw [h₂]
      norm_num [Detection.TOL_ABS, Detection.TOL_PCT]
  · simp only [ReconcileService.severity_from, if_neg hns]
    rw [if_neg, if_neg]
    · rw [h₃]
      norm_num [Detection.WARN_PCT]
    · rw [h₃]
      norm_num [Detection.TOL_ABS, Detection.TOL_PCT]

/-- C5 witness: the boundaries hold at the concrete non-valid status
`suspicious_over` with differences 15, 25, 40. -/
theorem C5_classifier_boundaries_witness :
    ("suspicious_over" ≠ "valid") ∧ ("suspicious_over" ≠ "cross_day_valid") ∧
    |(15 : ℚ)| = 15 ∧ |(25 : ℚ)| = 25 ∧ |(40 : ℚ)| = 40 ∧
    (ReconcileService.severity_from "suspicious_over" 15 100 = "info" ∧
      ReconcileService.severity_from "suspicious_over" 25 100 = "warning" ∧
      ReconcileService.severity_from "suspicious_over" 40 100 = "critical") :=
  ⟨by decide, by decide, by norm_num, by norm_num, by norm_num,
    C5_classifier_boundaries "suspicious_over" 15 25 40 (by decide) (by decide)
      (by norm_num) (by norm_num) (by norm_num)⟩

namespace ReconcileService

/-- Embedding of `TicketDto` (`schemas.py`).  `date` is the calendar day
obtained by `_to_date` from the `YYYY-MM-DD` string; fields the reconcile
service never reads (`timestamp`) are omitted. -/
structure TicketDto where
  ticket_id : String
  cauldron_id : String
  date : ℕ
  amount_collected : ℚ
  courier_id : String
deriving DecidableEq

/-- Embedding of `TicketsDto` (`schemas.py`); the `metadata` field is never
read by the reconcile service and is omitted. -/
structure TicketsDto where
  transport_tickets : List TicketDto
deriving DecidableEq

/-- Embedding of `DrainEventDto` (`schemas.py`), restricted to the fields the
reconcile service reads.  Timestamps are absolute minutes. -/
structure DrainEventDto where
  cauldron_id : String
  start_time : ℕ
  end_time : ℕ
  true_volume : Option ℚ
  volume_drained : Option ℚ
deriving DecidableEq

/-- Embedding of `DiscrepancyDto` (`schemas.py`).  The `date` string
(`match_date.isoformat()` or `""`) is modelled as the optional day number. -/
structure DiscrepancyDto where
  ticket_id : String
  cauldron_id : String
  date : Option ℕ
  ticket_volume : ℚ
  actual_drained : ℚ
  discrepancy : ℚ
  discrepancy_percent : ℚ
  severity : String
  matched_drain_events : List String
deriving DecidableEq

/-- Embedding of `DiscrepanciesDto` (`schemas.py`). -/
structure DiscrepanciesDto where
  discrepancies : List DiscrepancyDto
  total_discrepancies : ℕ
  critical_count : ℕ
  warning_count : ℕ
  info_count : ℕ
deriving DecidableEq

/-- Embedding of `_mk_drain_id`: `f"{d.cauldron_id}@{d.start_time.isoformat()}"`,
with the timestamp rendered from its minute value. -/
def mk_drain_id (d : DrainEventDto) : String :=
  d.cauldron_id ++ "@" ++ toString d.start_time

/-- Embedding of `_drain_volume`: prefer `true_volume`, fall back to
`volume_drained`, and `float(v or 0.0)` maps `None` to `0.0`. -/
def drain_volume (d : DrainEventDto) : ℚ :=
  match d.true_volume with
  | some v => v
  | none =>
    match d.volume_drained with
    | some v => v
    | none => 0

/-- Round half to even (Python's `round`), on exact rationals. -/
def roundHalfEven (x : ℚ) : ℤ :=
  let f := ⌊x⌋
  let frac := x - f
  if frac < 1/2 then f
  else if frac > 1/2 then f + 1
  else if f % 2 = 0 then f else f + 1

/-- Embedding of `round(x, 2)` on exact rationals. -/
def round2 (x : ℚ) : ℚ := (roundHalfEven (x * 100) : ℚ) / 100

/-- Embedding of `reconcile_from_live` (`reconcile_service.py` lines 45–104):
adapt the DTOs to the matcher structs, run `match_tickets_to_drains`, convert
every match (including unmatched ones) to a `DiscrepancyDto` via
`_severity_from`, and count severities. -/
def reconcile_from_live (tickets : TicketsDto) (drains : List DrainEventDto) :
    DiscrepanciesDto :=
  let m_tickets := tickets.transport_tickets.map (fun t =>
    ({ ticket_id := t.ticket_id, cauldron_id := t.cauldron_id,
       date := t.date, amount_collected := t.amount_collected,
       courier_id := some t.courier_id } : Detection.Ticket))
  let m_drains := drains.map (fun d =>
    ({ drain_event_id := mk_drain_id d, cauldron_id := d.cauldron_id,
       start_ts := d.start_time, end_ts := d.end_time,
       drained_volume := drain_volume d } : Detection.DrainEvent))
  let res := Detection.match_tickets_to_drains m_tickets m_drains
  let discrepancies := res.matches'.map (fun m =>
    let ticket_volume := m.drained_volume + m.difference
    let basis := max (max ticket_volume m.drained_volume) 1
    ({ ticket_id := m.ticket_id, cauldron_id := m.cauldron_id,
       date := m.match_date, ticket_volume := ticket_volume,
       actual_drained := m.drained_volume, discrepancy := m.difference,
       discrepancy_percent := round2 (|m.difference| / basis * 100),
       severity := severity_from m.status m.difference basis,
       matched_drain_events := m.drain_event_ids } : DiscrepancyDto))
  { discrepancies := discrepancies,
    total_discrepancies := discrepancies.length,
    critical_count :=
      (discrepancies.filter (fun d => d.severity = "critical")).length,
    warning_count :=
      (discrepancies.filter (fun d => d.severity = "warning")).length,
    info_count :=
      (discrepancies.filter (fun d => d.severity = "info")).length }

end ReconcileService

namespace Detection

/-- Running the matcher on a single ticket and no drains: the ticket bundles
nothing and comes back `unmatched` with `drained_volume = 0` and
`difference` equal to the full claim. -/
theorem matcher_single_ticket_no_drains (tk : Ticket) :
    match_tickets_to_drains [tk] [] =
      ⟨[⟨tk.ticket_id, tk.cauldron_id, [], 0, tk.amount_collected, 100,
        "unmatched", confidence tk.amount_collected tk.amount_collected 1,
        false, some tk.date⟩], []⟩ := by
  norm_num [match_tickets_to_drains, drainsByKey, ticketsByKey, groupByKey,
    insertionSortB, orderedInsertB, insertGrouped, lookupKey, processGroups,
    processGroup, processTicket, advanceUsed, bundleLoop, List.foldl]

end Detection

/-- C6 counterexample: one ticket claiming 50 with no drains at all comes out
of the matcher with `status = "unmatched"`, yet `reconcile_from_live` runs it
through the numeric tolerance rule of `_severity_from` and reports it with
severity `critical` (`|50| > max(12, 0.2*50)`, `50/50 > 0.30`), counted in
`critical_count` — not as a category of its own. -/
theorem C6_counterexample :
    ((Detection.match_tickets_to_drains
        [⟨"T1", "V1", 0, 50, some "C1"⟩] []).matches'.map
        (fun m => m.status) = ["unmatched"])
    ∧ ((ReconcileService.reconcile_from_live ⟨[⟨"T1", "V1", 0, 50, "C1"⟩]⟩
        []).discrepancies.map (fun d => d.severity) = ["critical"])
    ∧ (ReconcileService.reconcile_from_live ⟨[⟨"T1", "V1", 0, 50, "C1"⟩]⟩
        []).critical_count = 1 := by
  refine ⟨?_, ?_, ?_⟩
  · rw [Detection.matcher_single_ticket_no_drains]
    simp
  · norm_num [ReconcileService.reconcile_from_live,
      Detection.match_tickets_to_drains, Detection.drainsByKey,
      Detection.ticketsByKey, Detection.groupByKey, Detection.insertGrouped,
      insertionSortB, orderedInsertB, Detection.lookupKey,
      Detection.processGroups, Detection.processGroup, Detection.processTicket,
      Detection.advanceUsed, Detection.bundleLoop, Detection.confidence,
      ReconcileService.severity_from, Detection.TOL_ABS, Detection.TOL_PCT,
      Detection.WARN_PCT, List.foldl, List.map,
      (by decide : ¬ ("unmatched" = "valid" ∨ "unmatched" = "cross_day_valid"))]
  · norm_num [ReconcileService.reconcile_from_live,
      Detection.match_tickets_to_drains, Detection.drainsByKey,
      Detection.ticketsByKey, Detection.groupByKey, Detection.insertGrouped,
      insertionSortB, orderedInsertB, Detection.lookupKey,
      Detection.processGroups, Detection.processGroup, Detection.processTicket,
      Detection.advanceUsed, Detection.bundleLoop, Detection.confidence,
      ReconcileService.severity_from, Detection.TOL_ABS, Detection.TOL_PCT,
      Detection.WARN_PCT, List.foldl, List.map,
      (by decide : ¬ ("unmatched" = "valid" ∨ "unmatched" = "cross_day_valid"))]

/-- C6 (amended): a ticket whose `MatchResult` has status `"unmatched"` is
NOT reported as its own category by `reconcile_from_live`: it is converted to
a `DiscrepancyDto` like every other match, its severity is derived by the
numeric tolerance rule of `_severity_from` applied to its claimed volume
against a drained volume of 0, and that rule only ever yields `info`,
`warning` or `critical`. -/
theorem C6_unmatched_through_numeric_rule (t : ReconcileService.TicketDto) :
    ((ReconcileService.reconcile_from_live ⟨[t]⟩ []).discrepancies.map
        (fun d => d.severity)
      = [ReconcileService.severity_from "unmatched" t.amount_collected
          (max (max t.amount_collected 0) 1)])
    ∧ (∀ diff basis : ℚ,
        ReconcileService.severity_from "unmatched" diff basis = "info" ∨
        ReconcileService.severity_from "unmatched" diff basis = "warning" ∨
        ReconcileService.severity_from "unmatched" diff basis = "critical") := by
  constructor
  · norm_num [ReconcileService.reconcile_from_live,
      Detection.match_tickets_to_drains, Detection.drainsByKey,
      Detection.ticketsByKey, Detection.groupByKey, Detection.insertGrouped,
      insertionSortB, orderedInsertB, Detection.lookupKey,
      Detection.processGroups, Detection.processGroup, Detection.processTicket,
      Detection.advanceUsed, Detection.bundleLoop, List.foldl, List.map]
  · intro diff basis
    simp only [ReconcileService.severity_from]
    rw [if_neg (by simp)]
    split_ifs with h1 h2
    · exact Or.inl rfl
    · exact Or.inr (Or.inl rfl)
    · exact Or.inr (Or.inr rfl)

namespace Detection

/-- The ticket sort key `(cauldron_id, date, ticket_id)`. -/
def ticketKey (t : Ticket) : String × ℕ × String :=
  (t.cauldron_id, t.date, t.ticket_id)

/-- The drain sort key `(cauldron_id, start_ts)`. -/
def drainKey (d : DrainEvent) : String × ℕ :=
  (d.cauldron_id, d.start_ts)

theorem drainLe_total (a b : DrainEvent) :
    drainLe a b = true ∨ drainLe b a = true := by
  unfold drainLe
  by_cases h : a.cauldron_id = b.cauldron_id
  · rw [if_pos h, if_pos h.symm]
    rcases Nat.le_total a.start_ts b.start_ts with h' | h'
    · exact Or.inl (by simpa using h')
    · exact Or.inr (by simpa using h')
  · rw [if_neg h, if_neg (fun h' => h h'.symm)]
    exact strLe_total _ _

theorem drainLe_trans (a b c : DrainEvent) (hab : drainLe a b = true)
    (hbc : drainLe b c = true) : drainLe a c = true := by
  unfold drainLe at *
  by_cases h1 : a.cauldron_id = b.cauldron_id
  · by_cases h2 : b.cauldron_id = c.cauldron_id
    · rw [if_pos h1] at hab
      rw [if_pos h2] at hbc
      rw [if_pos (h1.trans h2)]
      simp only [decide_eq_true_eq] at *
      omega
    · rw [if_neg h2] at hbc
      have h3 : a.cauldron_id ≠ c.cauldron_id := by
        rw [h1]
        exact h2
      rw [if_neg h3, h1]
      exact hbc
  · by_cases h2 : b.cauldron_id = c.cauldron_id
    · rw [if_neg h1] at hab
      have h3 : a.cauldron_id ≠ c.cauldron_id := by
        rw [← h2]
        exact h1
      rw [if_neg h3, ← h2]
      exact hab
    · rw [if_neg h1] at hab
      rw [if_neg h2] at hbc
      by_cases h3 : a.cauldron_id = c.cauldron_id
      · exfalso
        apply h1
        rw [← h3] at hbc
        exact strLe_antisymm _ _ hab hbc
      · rw [if_neg h3]
        exact strLe_trans _ _ _ hab hbc

theorem drainLe_antisymm_key (a b : DrainEvent) (hab : drainLe a b = true)
    (hba : drainLe b a = true) : drainKey a = drainKey b := by
  unfold drainLe at *
  unfold drainKey
  by_cases h : a.cauldron_id = b.cauldron_id
  · rw [if_pos h] at hab
    rw [if_pos h.symm] at hba
    simp only [decide_eq_true_eq] at *
    exact Prod.ext h (by omega)
  · rw [if_neg h] at hab
    rw [if_neg (fun h' => h h'.symm)] at hba
    exact absurd (strLe_antisymm _ _ hab hba) h

theorem ticketLe_total (a b : Ticket) :
    ticketLe a b = true ∨ ticketLe b a = true := by
  unfold ticketLe
  by_cases h : a.cauldron_id = b.cauldron_id
  · rw [if_pos h, if_pos h.symm]
    by_cases hd : a.date = b.date
    · rw [if_pos hd, if_pos hd.symm]
      exact strLe_total _ _
    · rw [if_neg hd, if_neg (fun h' => hd h'.symm)]
      rcases Nat.le_total a.date b.date with h' | h'
      · exact Or.inl (by simpa using h')
      · exact Or.inr (by simpa using h')
  · rw [if_neg h, if_neg (fun h' => h h'.symm)]
    exact strLe_total _ _

theorem ticketLe_trans (a b c : Ticket) (hab : ticketLe a b = true)
    (hbc : ticketLe b c = true) : ticketLe a c = true := by
  unfold ticketLe at *
  by_cases h1 : a.cauldron_id = b.cauldron_id
  · by_cases h2 : b.cauldron_id = c.cauldron_id
    · rw [if_pos h1] at hab
      rw [if_pos h2] at hbc
      rw [if_pos (h1.trans h2)]
      by_cases hd1 : a.date = b.date
      · by_cases hd2 : b.date = c.date
        · rw [if_pos hd1] at hab
          rw [if_pos hd2] at hbc
          rw [if_pos (hd1.trans hd2)]
          exact strLe_trans _ _ _ hab hbc
        · rw [if_neg hd2] at hbc
          have hd3 : a.date ≠ c.date := by
            rw [hd1]
            exact hd2
          rw [if_neg hd3, hd1]
          exact hbc
      · by_cases hd2 : b.date = c.date
        · rw [if_neg hd1] at hab
          have hd3 : a.date ≠ c.date := by
            rw [← hd2]
            exact hd1
          rw [if_neg hd3, ← hd2]
          exact hab
        · rw [if_neg hd1] at hab
          rw [if_neg hd2] at hbc
          simp only [decide_eq_true_eq] at hab hbc
          by_cases hd3 : a.date = c.date
          · exfalso
            apply hd1
            omega
          · rw [if_neg hd3]
            simp only [decide_eq_true_eq]
            omega
    · rw [if_neg h2] at hbc
      have h3 : a.cauldron_id ≠ c.cauldron_id := by
        rw [h1]
        exact h2
      rw [if_neg h3, h1]
      exact hbc
  · by_cases h2 : b.cauldron_id = c.cauldron_id
    · rw [if_neg h1] at hab
      have h3 : a.cauldron_id ≠ c.cauldron_id := by
        rw [← h2]
        exact h1
      rw [if_neg h3, ← h2]
      exact hab
    · rw [if_neg h1] at hab
      rw [if_neg h2] at hbc
      by_cases h3 : a.cauldron_id = c.cauldron_id
      · exfalso
        apply h1
        rw [← h3] at hbc
        exact strLe_antisymm _ _ hab hbc
      · rw [if_neg h3]
        exact strLe_trans _ _ _ hab hbc

theorem ticketLe_antisymm_key (a b : Ticket) (hab : ticketLe a b = true)
    (hba : ticketLe b a = true) : ticketKey a = ticketKey b := by
  unfold ticketLe at *
  unfold ticketKey
  by_cases h : a.cauldron_id = b.cauldron_id
  · rw [if_pos h] at hab
    rw [if_pos h.symm] at hba
    by_cases hd : a.date = b.date
    · rw [if_pos hd] at hab
      rw [if_pos hd.symm] at hba
      exact Prod.ext h (Prod.ext hd (strLe_antisymm _ _ hab hba))
    · rw [if_neg hd] at hab
      rw [if_neg (fun h' => hd h'.symm)] at hba
      simp only [decide_eq_true_eq] at *
      exact absurd (by omega : a.date = b.date) hd
  · rw [if_neg h] at hab
    rw [if_neg (fun h' => h h'.symm)] at hba
    exact absurd (strLe_antisymm _ _ hab hba) h

end Detection

/-- C10 counterexample: the output of `match_tickets_to_drains` is NOT
independent of the input ordering of drains — with no tickets and two
distinct drains, `unmatched_drains` echoes the input order, so swapping the
two input drains changes the output. -/
theorem C10_counterexample :
    Detection.match_tickets_to_drains []
        [Detection.exDrain1, Detection.exDrain2]
      ≠ Detection.match_tickets_to_drains []
        [Detection.exDrain2, Detection.exDrain1] := by
  intro h
  have h2 := congrArg (fun o => o.unmatched_drains.map
    (fun d => d.drain_event_id)) h
  norm_num [Detection.match_tickets_to_drains, Detection.drainsByKey,
    Detection.ticketsByKey, Detection.groupByKey, Detection.insertGrouped,
    insertionSortB, orderedInsertB, Detection.lookupKey,
    Detection.processGroups, Detection.processGroup, Detection.drainLe,
    strLe, charsLe, Detection.key_day, Detection.exDrain1, Detection.exDrain2,
    List.foldl, List.map] at h2
  exact absurd h2.1 (by decide)

/-- C10 (amended): `match_tickets_to_drains` is a pure function (equal inputs
give equal outputs), and when the ticket sort keys `(cauldron_id, date,
ticket_id)` are pairwise distinct and the drain sort keys `(cauldron_id,
start_ts)` are pairwise distinct, permuting the input tickets and drains
leaves the `MatchResult` list unchanged (same results, same order) and
permutes `unmatched_drains` — whose order follows the drain input order, not
the sorted order. -/
theorem C10_order_independence_with_distinct_keys
    (t₁ t₂ : List Detection.Ticket) (d₁ d₂ : List Detection.DrainEvent)
    (hpt : List.Perm t₁ t₂) (hpd : List.Perm d₁ d₂)
    (hnt : (t₁.map Detection.ticketKey).Nodup)
    (hnd : (d₁.map Detection.drainKey).Nodup) :
    (Detection.match_tickets_to_drains t₁ d₁).matches'
      = (Detection.match_tickets_to_drains t₂ d₂).matches'
    ∧ List.Perm (Detection.match_tickets_to_drains t₁ d₁).unmatched_drains
        (Detection.match_tickets_to_drains t₂ d₂).unmatched_drains := by
  have hsortT : insertionSortB Detection.ticketLe t₁
      = insertionSortB Detection.ticketLe t₂ := by
    refine insertionSortB_eq_of_perm _ Detection.ticketLe_trans
      Detection.ticketLe_total t₁ t₂ hpt ?_
    intro a ha b hb hab hba
    exact List.inj_on_of_nodup_map hnt ha hb
      (Detection.ticketLe_antisymm_key a b hab hba)
  have hsortD : insertionSortB Detection.drainLe d₁
      = insertionSortB Detection.drainLe d₂ := by
    refine insertionSortB_eq_of_perm _ Detection.drainLe_trans
      Detection.drainLe_total d₁ d₂ hpd ?_
    intro a ha b hb hab hba
    exact List.inj_on_of_nodup_map hnd ha hb
      (Detection.drainLe_antisymm_key a b hab hba)
  have hgroups : Detection.processGroups (Detection.drainsByKey d₁)
        (Detection.ticketsByKey t₁) []
      = Detection.processGroups (Detection.drainsByKey d₂)
        (Detection.ticketsByKey t₂) [] := by
    unfold Detection.drainsByKey Detection.ticketsByKey
    rw [hsortT, hsortD]
  constructor
  · rw [Detection.match_tickets_to_drains_eq,
      Detection.match_tickets_to_drains_eq]
    simp only [hgroups]
  · rw [Detection.match_tickets_to_drains_eq,
      Detection.match_tickets_to_drains_eq]
    simp only [hgroups]
    exact hpd.filter _

/-- C10 witness: at one concrete ticket and two drains with distinct sort
keys, swapping the drain input order keeps the matches identical and permutes
the unmatched drains. -/
theorem C10_order_independence_witness :
    List.Perm [Detection.exTicket50] [Detection.exTicket50]
    ∧ List.Perm [Detection.exDrain1, Detection.exDrain2]
        [Detection.exDrain2, Detection.exDrain1]
    ∧ ([Detection.exTicket50].map Detection.ticketKey).Nodup
    ∧ ([Detection.exDrain1, Detection.exDrain2].map Detection.drainKey).Nodup
    ∧ ((Detection.match_tickets_to_drains [Detection.exTicket50]
          [Detection.exDrain1, Detection.exDrain2]).matches'
        = (Detection.match_tickets_to_drains [Detection.exTicket50]
          [Detection.exDrain2, Detection.exDrain1]).matches'
      ∧ List.Perm
          (Detection.match_tickets_to_drains [Detection.exTicket50]
            [Detection.exDrain1, Detection.exDrain2]).unmatched_drains
          (Detection.match_tickets_to_drains [Detection.exTicket50]
            [Detection.exDrain2, Detection.exDrain1]).unmatched_drains) :=
  ⟨List.Perm.refl _, List.Perm.swap _ _ _,
    by simp [Detection.ticketKey, Detection.exTicket50],
    by simp [Detection.drainKey, Detection.exDrain1, Detection.exDrain2],
    C10_order_independence_with_distinct_keys _ _ _ _ (List.Perm.refl _)
      (List.Perm.swap _ _ _)
      (by simp [Detection.ticketKey, Detection.exTicket50])
      (by simp [Detection.drainKey, Detection.exDrain1, Detection.exDrain2])⟩

/-! ## `rate_calculator.py`: the RateEstimator -/

namespace RateCalculator

/-- One reading row: `['timestamp', 'level']`, with the timestamp in
minutes. -/
structure Row where
  timestamp : ℚ
  level : ℚ
deriving DecidableEq

/-- Sort order of `df.sort_values('timestamp')`.  (Rows with equal
timestamps are kept in input order; pandas leaves their relative order
unspecified.) -/
def rowLe (a b : Row) : Bool := a.timestamp ≤ b.timestamp

/-- Embedding of pandas `Series.diff()` with the leading `NaN` dropped:
consecutive differences of a list. -/
def diffs : List ℚ → List ℚ
  | a :: b :: rest => (b - a) :: diffs (b :: rest)
  | _ => []

/-- Embedding of pandas `Series.median()` over the rationals: sort, take the
middle element, or the mean of the two middle elements.  The empty case
(pandas `NaN`) is mapped to 0; every use below is either guarded to be
nonempty or provably unreachable. -/
def median0 (l : List ℚ) : ℚ :=
  let s := insertionSortB (fun a b => a ≤ b) l
  let n := l.length
  if n = 0 then 0
  else if n % 2 = 1 then s.getD (n / 2) 0
  else (s.getD (n / 2 - 1) 0 + s.getD (n / 2) 0) / 2

/-- Embedding of `scipy.stats.linregress` restricted to the slope: ordinary
least squares, raising (`ValueError`) exactly when all x values are
identical (`Sxx = 0`). -/
def linregress (pts : List (ℚ × ℚ)) : Except Unit ℚ :=
  let n : ℚ := pts.length
  let xs := pts.map Prod.fst
  let ys := pts.map Prod.snd
  let xbar := xs.sum / n
  let ybar := ys.sum / n
  let sxx := (xs.map (fun x => (x - xbar) ^ 2)).sum
  let sxy := (List.zipWith (fun x y => (x - xbar) * (y - ybar)) xs ys).sum
  if sxx = 0 then Except.error () else Except.ok (sxy / sxx)

/-- Embedding of `df[df['level'].diff() > 0]['level']`: the levels at
positions whose difference from the previous level is positive.  (The source
then re-diffs THIS filtered series — see `calculate_fill_rate`.) -/
def posFilteredLevels : List ℚ → List ℚ
  | a :: b :: rest => (if a < b then [b] else []) ++ posFilteredLevels (b :: rest)
  | _ => []

/-- Embedding of `RateCalculator.calculate_fill_rate`
(`rate_calculator.py` lines 24–79).  `None` or fewer than two rows give 0;
rates are per-sample level differences over time differences (`NaN` on a
zero time delta, modelled by `Option`); at least ten rates strictly between
`tolerance` and 10 give their median clamped to ≥ 0; otherwise an OLS
regression over the whole series clamped to ≥ 0; if the regression raises,
the median of the re-diffed positive-diff rows over the median time delta
when that median is positive, else 0. -/
def calculate_fill_rate (tolerance : ℚ) (df : Option (List Row)) : ℚ :=
  match df with
  | none => 0
  | some rows =>
    if rows.length < 2 then 0
    else
      let s := insertionSortB rowLe rows
      let ts := s.map (fun r => r.timestamp)
      let lvls := s.map (fun r => r.level)
      let t0 := ts.headD 0
      let minutes := ts.map (fun t => t - t0)
      let md := diffs minutes
      let ld := diffs lvls
      let rates := List.zipWith
        (fun dl dm => if dm = 0 then none else some (dl / dm)) ld md
      let filling := (rates.filterMap id).filter
        (fun r => tolerance < r ∧ r < 10)
      if filling.length < 10 then
        if s.length < 2 then 0
        else
          match linregress (minutes.zip lvls) with
          | Except.ok slope => max 0 slope
          | Except.error _ =>
            let posLvls := posFilteredLevels lvls
            if posLvls.length > 0 then
              let tmed := median0 md
              if tmed > 0 then median0 (diffs posLvls) / tmed else 0
            else 0
      else max 0 (median0 filling)

end RateCalculator

namespace RateCalculator

theorem list_sum_eq_zero_of_nonneg :
    ∀ l : List ℚ, (∀ a ∈ l, 0 ≤ a) → l.sum = 0 → ∀ a ∈ l, a = 0 := by
  intro l
  induction l with
  | nil => simp
  | cons x t ih =>
    intro hnn hsum a ha
    have hx : 0 ≤ x := hnn x (by simp)
    have ht : 0 ≤ t.sum := List.sum_nonneg (fun b hb => hnn b (by simp [hb]))
    rw [List.sum_cons] at hsum
    rcases List.mem_cons.mp ha with rfl | ha'
    · linarith
    · exact ih (fun b hb => hnn b (by simp [hb])) (by linarith) a ha'

/-- If `linregress` raises, every x value equals the mean x value. -/
theorem linregress_error_all_eq_xbar (pts : List (ℚ × ℚ)) (e : Unit)
    (h : linregress pts = Except.error e) :
    ∀ x ∈ pts.map Prod.fst,
      x = (pts.map Prod.fst).sum / (pts.length : ℚ) := by
  simp only [linregress] at h
  split_ifs at h with hs
  intro x hx
  have hsq := list_sum_eq_zero_of_nonneg _
    (by
      intro a ha
      rcases List.mem_map.mp ha with ⟨y, _, rfl⟩
      positivity)
    hs _ (List.mem_map_of_mem _ hx)
  have h0 : x - (pts.map Prod.fst).sum / (pts.length : ℚ) = 0 := by
    simpa using hsq
  linarith

theorem diffs_zero :
    ∀ l : List ℚ, (∀ x ∈ l, ∀ y ∈ l, x = y) → ∀ z ∈ diffs l, z = 0 := by
  intro l
  induction l with
  | nil =>
    intro _ z hz
    simp [diffs] at hz
  | cons a tail ih =>
    intro h z hz
    cases tail with
    | nil => simp [diffs] at hz
    | cons b rest =>
      simp only [diffs] at hz
      rcases List.mem_cons.mp hz with hz' | hz'
      · rw [hz', h b (by simp) a (by simp)]
        simp
      · exact ih (fun x hx y hy => h x (by simp [hx]) y (by simp [hy])) z hz'

theorem getD_zero_of_all_zero (s : List ℚ) (h : ∀ x ∈ s, x = 0) (i : ℕ) :
    s.getD i 0 = 0 := by
  rcases hi : s[i]? with _ | x
  · simp [List.getD, hi]
  · have hx : x ∈ s := List.getElem?_mem hi
    simp [List.getD, hi, h x hx]

theorem median0_zero (l : List ℚ) (h : ∀ x ∈ l, x = 0) : median0 l = 0 := by
  have hmem : ∀ x ∈ insertionSortB (fun a b => a ≤ b) l, x = 0 := by
    intro x hx
    exact h x ((perm_insertionSortB _ l).mem_iff.mp hx)
  simp only [median0]
  split_ifs with h1 h2
  · rfl
  · exact getD_zero_of_all_zero _ hmem _
  · rw [getD_zero_of_all_zero _ hmem, getD_zero_of_all_zero _ hmem]
    norm_num

end RateCalculator

/-- C9: for every tolerance and every input (including `None`),
`calculate_fill_rate` returns a nonnegative value: every return path is
either a constant 0, a `max 0 _`, or the regression-failure fallback whose
negative-capable branch is unreachable (the regression only raises when all
timestamps coincide, which forces the median time delta to 0). -/
theorem C9_fill_rate_nonneg (tolerance : ℚ)
    (df : Option (List RateCalculator.Row)) :
    0 ≤ RateCalculator.calculate_fill_rate tolerance df := by
  cases df with
  | none => simp [RateCalculator.calculate_fill_rate]
  | some rows =>
    simp only [RateCalculator.calculate_fill_rate]
    split_ifs with h1 h2 h3 h4 h5
    · exact le_refl 0
    · exact le_refl 0
    · split
      · exact le_max_left 0 _
      · rename_i x e heq
        have hxs : ∀ a ∈ ((insertionSortB RateCalculator.rowLe rows).map
              (fun r => r.timestamp)).map
              (fun t => t - ((insertionSortB RateCalculator.rowLe rows).map
                (fun r => r.timestamp)).headD 0),
            ∀ b ∈ ((insertionSortB RateCalculator.rowLe rows).map
              (fun r => r.timestamp)).map
              (fun t => t - ((insertionSortB RateCalculator.rowLe rows).map
                (fun r => r.timestamp)).headD 0), a = b := by
          have hlen : (((insertionSortB RateCalculator.rowLe rows).map
              (fun r => r.timestamp)).map
              (fun t => t - ((insertionSortB RateCalculator.rowLe rows).map
                (fun r => r.timestamp)).headD 0)).length ≤
              ((insertionSortB RateCalculator.rowLe rows).map
                (fun r => r.level)).length := by
            simp
          have hfst := List.map_fst_zip _ _ hlen
          intro a ha b hb
          have ha2 := RateCalculator.linregress_error_all_eq_xbar _ e heq a
            (by rw [hfst]; exact ha)
          have hb2 := RateCalculator.linregress_error_all_eq_xbar _ e heq b
            (by rw [hfst]; exact hb)
          rw [ha2, hb2]
        have hmd : RateCalculator.median0 (RateCalculator.diffs
            (((insertionSortB RateCalculator.rowLe rows).map
              (fun r => r.timestamp)).map
              (fun t => t - ((insertionSortB RateCalculator.rowLe rows).map
                (fun r => r.timestamp)).headD 0))) = 0 :=
          RateCalculator.median0_zero _ (RateCalculator.diffs_zero _ hxs)
        rw [hmd] at h5
        exact absurd h5 (by norm_num)
    · split
      · exact le_max_left 0 _
      · exact le_refl 0
    · split
      · exact le_max_left 0 _
      · exact le_refl 0
    · exact le_max_left 0 _

/-! ## `drain_detector.py`: the DrainSegmenter -/

namespace DrainDetector

/-- The `detection_method` parameter: `'derivative'` or `'threshold'`. -/
inductive DetectionMethod
  | derivative
  | threshold
deriving DecidableEq

/-- The constructor parameters of `DrainDetector`. -/
structure DetectorConfig where
  min_drop : ℚ
  max_duration_minutes : ℚ
  detection_method : DetectionMethod
  drain_threshold : ℚ
deriving DecidableEq

/-- Embedding of the `DrainEvent` class of `drain_detector.py`, with the
derived fields computed in `__init__` and the two fields mutated later by the
analyzer (`true_volume`, `fill_rate`) optional. -/
structure DrainEvent where
  start_time : ℚ
  end_time : ℚ
  start_level : ℚ
  end_level : ℚ
  cauldron_id : String
  duration_minutes : ℚ
  level_drop : ℚ
  true_volume : Option ℚ
  fill_rate : Option ℚ
deriving DecidableEq

/-- Embedding of `DrainEvent.__init__`: stores the interval and computes
`duration_minutes` and `level_drop`; `true_volume` and `fill_rate` start
unset. -/
def mkDrainEvent (start_time end_time start_level end_level : ℚ)
    (cid : String) : DrainEvent :=
  ⟨start_time, end_time, start_level, end_level, cid,
    end_time - start_time, start_level - end_level, none, none⟩

/-- Embedding of `df.drop_duplicates(subset=['timestamp'])`: keep the first
row of each timestamp. -/
def dedupByTimestamp : List RateCalculator.Row → List RateCalculator.Row
  | [] => []
  | r :: rest =>
    r :: dedupByTimestamp (rest.filter (fun x => x.timestamp ≠ r.timestamp))
termination_by l => l.length
decreasing_by
  simp only [List.length_cons]
  have h := List.length_filter_le
    (fun x => decide (x.timestamp ≠ r.timestamp)) rest
  omega

/-- The per-sample draining marks from the second row on: `rate < threshold`
with a `NaN` rate (zero time delta) never marking. -/
def marksGo (th : ℚ) : RateCalculator.Row → List RateCalculator.Row →
    List Bool
  | _, [] => []
  | prev, cur :: rest =>
    (if cur.timestamp - prev.timestamp = 0 then false
      else decide ((cur.level - prev.level) /
        (cur.timestamp - prev.timestamp) < th)) :: marksGo th cur rest

/-- Embedding of `df['is_draining'] = df['rate'] < threshold`: the first
sample has a `NaN` rate and is never draining. -/
def marks (th : ℚ) : List RateCalculator.Row → List Bool
  | [] => []
  | r :: rest => false :: marksGo th r rest

/-- Embedding of the boundary loop of `_detect_by_derivative`: maximal runs
of consecutively marked samples (a run touching the end of the series is
closed at the last sample). -/
def splitRuns : List (RateCalculator.Row × Bool) → List (List RateCalculator.Row)
  | [] => []
  | (r, b) :: rest =>
    if b then
      (r :: (rest.takeWhile (fun p => p.2)).map Prod.fst) ::
        splitRuns (rest.dropWhile (fun p => p.2))
    else splitRuns rest
termination_by l => l.length
decreasing_by
  · simp only [List.length_cons]
    have h := (List.dropWhile_sublist (l := rest)
      (p := fun p => p.2)).length_le
    omega
  · simp

/-- Embedding of the validation loop of `_detect_by_derivative`: keep a run
as a `DrainEvent` only if `level_drop >= min_drop` and
`0 < duration <= max_duration_minutes`. -/
def eventsOfRuns (min_drop max_dur : ℚ) (cid : String)
    (runs : List (List RateCalculator.Row)) : List DrainEvent :=
  runs.filterMap (fun run =>
    match run.head?, run.getLast? with
    | some a, some b =>
      if a.level - b.level ≥ min_drop ∧ 0 < b.timestamp - a.timestamp
          ∧ b.timestamp - a.timestamp ≤ max_dur then
        some (mkDrainEvent a.timestamp b.timestamp a.level b.level cid)
      else none
    | _, _ => none)

/-- Embedding of `DrainDetector._detect_by_derivative`
(`drain_detector.py` lines 113–182). -/
def detect_by_derivative (cfg : DetectorConfig) (s : List RateCalculator.Row)
    (cid : String) : List DrainEvent :=
  if s.length < 2 then []
  else eventsOfRuns cfg.min_drop cfg.max_duration_minutes cid
    (splitRuns (s.zip (marks cfg.drain_threshold s)))

/-- Embedding of `DrainDetector._detect_by_threshold`
(`drain_detector.py` lines 184–226): slide a 15-sample window, keep windows
spanning 1–60 minutes whose drop meets `min_drop`, deduplicating by the
`(start, end)` timestamp pair.  (The source's `i += window_size - 1` inside
the `for` loop has no effect on the iteration and is omitted.) -/
def detect_by_threshold (cfg : DetectorConfig) (s : List RateCalculator.Row)
    (cid : String) : List DrainEvent :=
  let step := fun (acc : List (ℚ × ℚ) × List DrainEvent) (i : ℕ) =>
    let w := (s.drop i).take 15
    match w.head?, w.getLast? with
    | some first, some last =>
      let span := last.timestamp - first.timestamp
      if span < 1 ∨ span > 60 then acc
      else if first.level - last.level ≥ cfg.min_drop then
        if (first.timestamp, last.timestamp) ∈ acc.1 then acc
        else ((first.timestamp, last.timestamp) :: acc.1,
          acc.2 ++ [mkDrainEvent first.timestamp last.timestamp
            first.level last.level cid])
      else acc
    | _, _ => acc
  ((List.range (s.length - 15)).foldl step ([], [])).2

/-- Embedding of `DrainDetector.detect_drains`
(`drain_detector.py` lines 78–111): `None` or fewer than two rows give `[]`;
otherwise sort by timestamp, drop duplicate timestamps, and dispatch on the
detection method. -/
def detect_drains (cfg : DetectorConfig) (df : Option (List RateCalculator.Row))
    (cid : String) : List DrainEvent :=
  match df with
  | none => []
  | some rows =>
    if rows.length < 2 then []
    else
      let s := dedupByTimestamp (insertionSortB RateCalculator.rowLe rows)
      match cfg.detection_method with
      | DetectionMethod.derivative => detect_by_derivative cfg s cid
      | DetectionMethod.threshold => detect_by_threshold cfg s cid

end DrainDetector

/-! ## `analyzer.py`: the per-cauldron pipeline -/

namespace Analyzer

/-- A raw reading DataFrame as the analyzer sees it: whether the
`'timestamp'` and `'level'` columns exist, and the rows. -/
structure RawFrame where
  hasTimestampCol : Bool
  hasLevelCol : Bool
  rows : List RateCalculator.Row
deriving DecidableEq

/-- The dict returned by `CauldronAnalyzer.analyze_cauldron`. -/
structure AnalysisResult where
  cauldron_id : String
  error : Option String
  fill_rate : ℚ
  num_drains : ℕ
  total_volume_drained : ℚ
  avg_drain_volume : ℚ
  drain_events : List DrainDetector.DrainEvent
deriving DecidableEq

/-- The well-formed zero-value result the analyzer returns on bad input or
internal failure, annotated with the error description. -/
def zeroResult (cid msg : String) : AnalysisResult :=
  ⟨cid, some msg, 0, 0, 0, 0, []⟩

/-- The analyzer's default detector parameters
(`CauldronAnalyzer.__init__`): `min_drop=5.0`, `max_duration_minutes=120`,
`detection_method='derivative'`, `drain_threshold=-8.0`. -/
def defaultConfig : DrainDetector.DetectorConfig :=
  ⟨5, 120, DrainDetector.DetectionMethod.derivative, -8⟩

/-- The relaxed second-pass parameters of the fallback in `analyze_cauldron`
(lines 82–87): `min_drop = max(2.0, min_drop / 2)`,
`max_duration_minutes = max(180, max_duration_minutes)`, method
`'derivative'`, `drain_threshold = -0.3`. -/
def relaxedConfig (cfg : DrainDetector.DetectorConfig) :
    DrainDetector.DetectorConfig :=
  ⟨max 2 (cfg.min_drop / 2), max 180 cfg.max_duration_minutes,
    DrainDetector.DetectionMethod.derivative, -0.3⟩

/-- Step 3 of `analyze_cauldron`: attach `true_volume` (via
`calculate_true_drain_volume`) and `fill_rate` to a detected drain.  The
source mutates the event in place; the embedding is a functional update. -/
def finalize (fr : ℚ) (d : DrainDetector.DrainEvent) :
    DrainDetector.DrainEvent :=
  { d with
    true_volume := some (RateCalculator.calculate_true_drain_volume
      d.start_level d.end_level d.duration_minutes fr),
    fill_rate := some fr }

/-- The body of `analyze_cauldron` inside the `try` block: the explicit
`raise` sites are `Except.error`, everything else is total on the rational
model. -/
def analyze_body (cfg : DrainDetector.DetectorConfig) (opt : Option RawFrame)
    (cid : String) : Except String AnalysisResult :=
  match opt with
  | none => Except.ok (zeroResult cid "No data provided")
  | some f =>
    if f.rows.length = 0 then Except.ok (zeroResult cid "No data provided")
    else if f.hasTimestampCol = false then
      Except.error "DataFrame must have 'timestamp' column"
    else if f.hasLevelCol = false then
      Except.error "DataFrame must have 'level' column"
    else
      let fill_rate := RateCalculator.calculate_fill_rate 0.1 (some f.rows)
      let strict := DrainDetector.detect_drains cfg (some f.rows) cid
      let drains :=
        if strict = [] then
          DrainDetector.detect_drains (relaxedConfig cfg) (some f.rows) cid
        else strict
      let final := drains.map (finalize fill_rate)
      let total := (final.filterMap (fun d => d.true_volume)).sum
      let avg := if final ≠ [] then total / (final.length : ℚ) else 0
      Except.ok ⟨cid, none, fill_rate, final.length, total, avg, final⟩

/-- Embedding of `CauldronAnalyzer.analyze_cauldron` (`analyzer.py` lines
40–131): run the body and map any raised error to the zero-value result with
the `'error'` field set. -/
def analyze_cauldron (cfg : DrainDetector.DetectorConfig)
    (opt : Option RawFrame) (cid : String) : AnalysisResult :=
  match analyze_body cfg opt cid with
  | Except.ok r => r
  | Except.error e =>
    zeroResult cid ("Error analyzing " ++ cid ++ ": " ++ e)

end Analyzer

/-- C7: `analyze_cauldron` is fail-soft.  On the rational model the function
is total (never raises), whenever its result carries an error annotation the
result is the well-formed zero-value record (`fill_rate = 0`,
`num_drains = 0`, `total_volume_drained = 0`, `avg_drain_volume = 0`, empty
`drain_events`), and every malformed input — `None`, an empty frame, or a
frame missing the `'timestamp'` or `'level'` column — produces such an
annotated result. -/
theorem C7_analyze_fail_soft (cfg : DrainDetector.DetectorConfig)
    (opt : Option Analyzer.RawFrame) (cid : String) :
    ((Analyzer.analyze_cauldron cfg opt cid).error.isSome = true →
      (Analyzer.analyze_cauldron cfg opt cid).fill_rate = 0 ∧
      (Analyzer.analyze_cauldron cfg opt cid).num_drains = 0 ∧
      (Analyzer.analyze_cauldron cfg opt cid).total_volume_drained = 0 ∧
      (Analyzer.analyze_cauldron cfg opt cid).avg_drain_volume = 0 ∧
      (Analyzer.analyze_cauldron cfg opt cid).drain_events = [])
    ∧ ((opt = none ∨ ∃ f, opt = some f ∧
          (f.rows = [] ∨ f.hasTimestampCol = false ∨ f.hasLevelCol = false)) →
        (Analyzer.analyze_cauldron cfg opt cid).error.isSome = true) := by
  cases opt with
  | none =>
    constructor
    · intro _
      simp [Analyzer.analyze_cauldron, Analyzer.analyze_body,
        Analyzer.zeroResult]
    · intro _
      simp [Analyzer.analyze_cauldron, Analyzer.analyze_body,
        Analyzer.zeroResult]
  | some f =>
    simp only [Analyzer.analyze_cauldron, Analyzer.analyze_body]
    split_ifs with h1 h2 h3 h4 h5
    · simp [Analyzer.zeroResult]
    · simp [Analyzer.zeroResult]
    · simp [Analyzer.zeroResult]
    all_goals
      constructor
      · intro h
        simp at h
      · intro hc
        rcases hc with h | ⟨f', hf', hbad⟩
        · exact absurd h (by simp)
        · have hff : f = f' := by
            injection hf'
          rcases hbad with hb | hb | hb
          · rw [hff] at h1
            rw [hb] at h1
            simp at h1
          · rw [hff] at h2
            exact absurd hb h2
          · rw [hff] at h3
            exact absurd hb h3

/-- C7 witness: a frame missing the `'timestamp'` column yields the
annotated zero-value result. -/
theorem C7_analyze_fail_soft_witness :
    (Analyzer.analyze_cauldron Analyzer.defaultConfig
        (some ⟨false, true, [⟨0, 100⟩]⟩) "X").error.isSome = true
    ∧ (Analyzer.analyze_cauldron Analyzer.defaultConfig
        (some ⟨false, true, [⟨0, 100⟩]⟩) "X").fill_rate = 0
    ∧ (Analyzer.analyze_cauldron Analyzer.defaultConfig
        (some ⟨false, true, [⟨0, 100⟩]⟩) "X").drain_events = [] :=
  have h := C7_analyze_fail_soft Analyzer.defaultConfig
    (some ⟨false, true, [⟨0, 100⟩]⟩) "X"
  have he := h.2 (Or.inr ⟨_, rfl, Or.inr (Or.inl rfl)⟩)
  ⟨he, (h.1 he).1, (h.1 he).2.2.2.2⟩

namespace Analyzer

/-- Readings for the fallback scenario: a steady drop of 3 units/min over 3
minutes — too shallow for the strict `-8` threshold, caught by the relaxed
`-0.3` one. -/
def fallbackRows : List RateCalculator.Row :=
  [⟨0, 100⟩, ⟨1, 97⟩, ⟨2, 94⟩, ⟨3, 91⟩]

/-- The strict default pass finds nothing on `fallbackRows`: every
per-sample rate is `-3`, which is not below the strict threshold `-8`. -/
theorem fallback_strict_empty :
    DrainDetector.detect_drains defaultConfig (some fallbackRows) "C1"
      = [] := by
  norm_num [DrainDetector.detect_drains, DrainDetector.dedupByTimestamp,
    DrainDetector.detect_by_derivative, DrainDetector.marks,
    DrainDetector.marksGo, DrainDetector.splitRuns,
    DrainDetector.eventsOfRuns, DrainDetector.mkDrainEvent, insertionSortB,
    orderedInsertB, RateCalculator.rowLe, defaultConfig, fallbackRows,
    List.filter, List.takeWhile, List.dropWhile, List.zip, List.zipWith]

end Analyzer

/-- C8: if the strict detection pass yields zero drain events,
`analyze_cauldron` retries once with the relaxed thresholds
`min_drop = max(2, strict/2)`, `max_duration_minutes = max(180, strict)`,
`drain_threshold = -0.3` (derivative method), and the returned
`drain_events` are exactly the relaxed pass's events (finalized with the fill
rate). -/
theorem C8_relaxed_fallback (cfg : DrainDetector.DetectorConfig)
    (f : Analyzer.RawFrame) (cid : String)
    (ht : f.hasTimestampCol = true) (hl : f.hasLevelCol = true)
    (hr : f.rows ≠ [])
    (hstrict : DrainDetector.detect_drains cfg (some f.rows) cid = []) :
    (Analyzer.analyze_cauldron cfg (some f) cid).drain_events
      = (DrainDetector.detect_drains (Analyzer.relaxedConfig cfg)
          (some f.rows) cid).map
        (Analyzer.finalize (RateCalculator.calculate_fill_rate 0.1
          (some f.rows)))
    ∧ Analyzer.relaxedConfig cfg
      = ⟨max 2 (cfg.min_drop / 2), max 180 cfg.max_duration_minutes,
          DrainDetector.DetectionMethod.derivative, -0.3⟩ := by
  constructor
  · simp only [Analyzer.analyze_cauldron, Analyzer.analyze_body]
    rw [if_neg (by simp [hr]), if_neg (by simp [ht]), if_neg (by simp [hl]),
      if_pos hstrict]
  · rfl

/-- C8 witness: on the concrete shallow-drop series the strict default pass
is empty and the analyzer's output events are the relaxed pass's events. -/
theorem C8_relaxed_fallback_witness :
    (⟨true, true, Analyzer.fallbackRows⟩ : Analyzer.RawFrame).hasTimestampCol
        = true
    ∧ (⟨true, true, Analyzer.fallbackRows⟩ :
        Analyzer.RawFrame).hasLevelCol = true
    ∧ (⟨true, true, Analyzer.fallbackRows⟩ :
        Analyzer.RawFrame).rows ≠ []
    ∧ DrainDetector.detect_drains Analyzer.defaultConfig
        (some Analyzer.fallbackRows) "C1" = []
    ∧ ((Analyzer.analyze_cauldron Analyzer.defaultConfig
          (some ⟨true, true, Analyzer.fallbackRows⟩) "C1").drain_events
        = (DrainDetector.detect_drains
            (Analyzer.relaxedConfig Analyzer.defaultConfig)
            (some Analyzer.fallbackRows) "C1").map
          (Analyzer.finalize (RateCalculator.calculate_fill_rate 0.1
            (some Analyzer.fallbackRows)))
      ∧ Analyzer.relaxedConfig Analyzer.defaultConfig
        = ⟨max 2 (Analyzer.defaultConfig.min_drop / 2),
            max 180 Analyzer.defaultConfig.max_duration_minutes,
            DrainDetector.DetectionMethod.derivative, -0.3⟩) :=
  ⟨rfl, rfl, by simp [Analyzer.fallbackRows], Analyzer.fallback_strict_empty,
    C8_relaxed_fallback Analyzer.defaultConfig
      ⟨true, true, Analyzer.fallbackRows⟩ "C1" rfl rfl
      (by simp [Analyzer.fallbackRows]) Analyzer.fallback_strict_empty⟩
